import Mathlib

/-!
Verification of the FT260 HID-to-I2C/UART bridge driver (hid-ft260.c).

This file gives a shallow embedding, in Lean, of the transaction-engine and
UART-bridge logic of hid-ft260.c: the chunked I2C write path
(ft260_i2c_write), the chunked I2C read path (ft260_i2c_read), the combined
write-then-read path (ft260_i2c_write_read), the status-poll sleep
computation (ft260_hid_output_report_check_status), the inbound report
dispatch (ft260_raw_event), the UART transmit path (ft260_uart_write and
ft260_uart_transmit_chars) and the UART line configuration
(ft260_uart_change_speed).  Machine integers are modelled as Nat, with the
C promotion to int made explicit as Int where a subtraction may go
negative.  Fallible paths return Except, carrying the errno value the C
code returns.  Stateful code is modelled by explicit state passing; the
sequence of HID reports a path emits is returned as a list.
-/

namespace FT260

/-! ### Constants from the source (hid-ft260.c) -/

/-- FT260_REPORT_MAX_LENGTH -/
def FT260_REPORT_MAX_LENGTH : Nat := 64

/-- FT260_RD_DATA_MAX: maximum read payload per inbound chunk. -/
def FT260_RD_DATA_MAX : Nat := 180

/-- FT260_WR_DATA_MAX: maximum write payload per output report. -/
def FT260_WR_DATA_MAX : Nat := 60

/-- FIFO_SIZE: capacity of the UART transmit kfifo. -/
def FIFO_SIZE : Nat := 256

/-- TTY_WAKEUP_WATERMARK = FIFO_SIZE / 2 -/
def TTY_WAKEUP_WATERMARK : Nat := FIFO_SIZE / 2

/-- Report ID FT260_I2C_STATUS. -/
def FT260_I2C_STATUS : Nat := 0xC0

/-- Report ID FT260_I2C_READ_REQ. -/
def FT260_I2C_READ_REQ : Nat := 0xC2

/-- Report ID range for inbound and outbound I2C data reports. -/
def FT260_I2C_REPORT_MIN : Nat := 0xD0

/-- Upper end of the I2C data report ID range. -/
def FT260_I2C_REPORT_MAX : Nat := 0xDE

/-- Report ID range for UART data reports. -/
def FT260_UART_REPORT_MIN : Nat := 0xF0

/-- Upper end of the UART data report ID range. -/
def FT260_UART_REPORT_MAX : Nat := 0xFE

/-- I2C condition flag: no condition. -/
def FT260_FLAG_NONE : Nat := 0x00

/-- I2C condition flag: start. -/
def FT260_FLAG_START : Nat := 0x02

/-- I2C condition flag: repeated start. -/
def FT260_FLAG_START_REPEATED : Nat := 0x03

/-- I2C condition flag: stop. -/
def FT260_FLAG_STOP : Nat := 0x04

/-- I2C condition flag: start and stop. -/
def FT260_FLAG_START_STOP : Nat := 0x06

/-- I2C condition flag: repeated start and stop. -/
def FT260_FLAG_START_STOP_REPEATED : Nat := 0x07

/-- FT260_I2C_DATA_REPORT_ID(len) = FT260_I2C_REPORT_MIN + (len - 1) / 4 -/
def FT260_I2C_DATA_REPORT_ID (len : Nat) : Nat :=
  FT260_I2C_REPORT_MIN + (len - 1) / 4

/-- FT260_UART_DATA_REPORT_ID(len) = FT260_UART_REPORT_MIN + (len - 1) / 4 -/
def FT260_UART_DATA_REPORT_ID (len : Nat) : Nat :=
  FT260_UART_REPORT_MIN + (len - 1) / 4

/-! ### errno values used by the driver -/

/-- errno EINVAL -/
def EINVAL : Nat := 22

/-- errno EIO -/
def EIO : Nat := 5

/-- errno EOPNOTSUPP -/
def EOPNOTSUPP : Nat := 95

/-- errno EBADR -/
def EBADR : Nat := 53

/-- errno ETIMEDOUT -/
def ETIMEDOUT : Nat := 110

/-! ### I2C write path: ft260_i2c_write

An outbound I2C write request report (struct ft260_i2c_write_request_report):
report ID, 7-bit address, condition flag, payload length, payload bytes. -/

structure I2cWriteReport where
  report : Nat
  address : Nat
  flag : Nat
  length : Nat
  data : List Nat
  deriving Repr, DecidableEq

/-- The wire image of a write request report, as laid out by
struct ft260_i2c_write_request_report (header bytes then payload). -/
def I2cWriteReport.encode (r : I2cWriteReport) : List Nat :=
  r.report :: r.address :: r.flag :: r.length :: r.data

/-- The do/while chunking loop of ft260_i2c_write.  `data` is the part of
the caller buffer still to send (the C code tracks it as data + idx with
len remaining), `flag` is the caller condition argument, and `curFlag` is
the running value of rep->flag: FT260_FLAG_START on entry to the loop and
0 after the first iteration. -/
def ft260_i2c_write_loop (addr : Nat) (data : List Nat) (flag : Nat)
    (curFlag : Nat) : List I2cWriteReport :=
  if _h : data.length ≤ FT260_WR_DATA_MAX then
    [{ report := FT260_I2C_DATA_REPORT_ID data.length
       address := addr
       flag := if flag = FT260_FLAG_START_STOP then
                 curFlag ||| FT260_FLAG_STOP
               else curFlag
       length := data.length
       data := data }]
  else
    { report := FT260_I2C_DATA_REPORT_ID FT260_WR_DATA_MAX
      address := addr
      flag := curFlag
      length := FT260_WR_DATA_MAX
      data := data.take FT260_WR_DATA_MAX } ::
      ft260_i2c_write_loop addr (data.drop FT260_WR_DATA_MAX) flag
        FT260_FLAG_NONE
termination_by data.length
decreasing_by
  simp only [List.length_drop]
  simp only [FT260_WR_DATA_MAX] at *
  omega

/-- Bridge state touched by the I2C paths: the cached bus clock, the
in-flight read descriptor (destination buffer modelled as the bytes
received so far, current offset, requested chunk length) and the write
staging buffer dev->write_buf (modelled as the bytes last encoded into
it). -/
structure I2cState where
  clock : Nat
  read_buf : Option (List Nat)
  read_idx : Nat
  read_len : Nat
  write_buf : List Nat
  deriving Repr, DecidableEq

/-- Success-path environment for a transaction: the clock field of the
I2C status report the device returns to the status polls (the driver
caches it into dev->clock on every poll). -/
structure I2cEnv where
  statusClock : Nat

/-- ft260_i2c_write: rejects a length below 1 with -EINVAL before touching
the staging buffer or sending anything; otherwise runs the chunking loop
(each chunk sent as one output report, success path) and, through the
status polls of ft260_hid_output_report_check_status /
ft260_xfer_status, refreshes the cached clock.  Returns the new state and
either the errno or the list of emitted write request reports. -/
def ft260_i2c_write (env : I2cEnv) (st : I2cState) (addr : Nat)
    (data : List Nat) (flag : Nat) : I2cState × Except Nat (List I2cWriteReport) :=
  if data.length < 1 then
    (st, .error EINVAL)
  else
    let reps := ft260_i2c_write_loop addr data flag FT260_FLAG_START
    ({ st with
        clock := env.statusClock
        write_buf :=
          (reps.getLastD
            { report := 0, address := 0, flag := 0, length := 0, data := [] }).encode },
     .ok reps)

/-! Helper lemmas about the write chunking loop. -/

/-- The loop always emits at least one report. -/
theorem ft260_i2c_write_loop_ne_nil (addr : Nat) (data : List Nat)
    (flag curFlag : Nat) :
    ft260_i2c_write_loop addr data flag curFlag ≠ [] := by
  rw [ft260_i2c_write_loop]
  split <;> simp

/-- Concatenating the payloads of the emitted reports recovers the
caller buffer. -/
theorem ft260_i2c_write_loop_flatten (addr : Nat) (data : List Nat)
    (flag curFlag : Nat) :
    ((ft260_i2c_write_loop addr data flag curFlag).map I2cWriteReport.data).flatten
      = data := by
  rw [ft260_i2c_write_loop]
  split
  · simp
  · simp only [List.map_cons, List.flatten_cons]
    rw [ft260_i2c_write_loop_flatten]
    exact List.take_append_drop _ _
termination_by data.length
decreasing_by
  simp only [List.length_drop]
  simp only [FT260_WR_DATA_MAX] at *
  omega

/-- The loop emits ceil(len / 60) reports for a nonempty buffer. -/
theorem ft260_i2c_write_loop_length (addr : Nat) (data : List Nat)
    (flag curFlag : Nat) (hlen : 1 ≤ data.length) :
    (ft260_i2c_write_loop addr data flag curFlag).length
      = (data.length + 59) / 60 := by
  rw [ft260_i2c_write_loop]
  split
  · rename_i h
    simp only [List.length_singleton]
    simp only [FT260_WR_DATA_MAX] at h
    omega
  · rename_i h
    simp only [List.length_cons]
    rw [ft260_i2c_write_loop_length]
    · simp only [List.length_drop]
      simp only [FT260_WR_DATA_MAX] at h ⊢
      omega
    · simp only [List.length_drop]
      simp only [FT260_WR_DATA_MAX] at h ⊢
      omega
termination_by data.length
decreasing_by
  simp only [List.length_drop]
  simp only [FT260_WR_DATA_MAX] at *
  omega

/-- The flag of the first emitted report. -/
theorem ft260_i2c_write_loop_head_flag (addr : Nat) (data : List Nat)
    (flag curFlag : Nat) :
    ∀ r, (ft260_i2c_write_loop addr data flag curFlag).head? = some r →
      r.flag = if data.length ≤ FT260_WR_DATA_MAX ∧ flag = FT260_FLAG_START_STOP
               then curFlag ||| FT260_FLAG_STOP
               else curFlag := by
  intro r hr
  rw [ft260_i2c_write_loop] at hr
  split at hr
  · rename_i h
    simp only [List.head?_cons, Option.some.injEq] at hr
    subst hr
    by_cases hf : flag = FT260_FLAG_START_STOP <;> simp [h, hf]
  · rename_i h
    simp only [List.head?_cons, Option.some.injEq] at hr
    subst hr
    simp [h]

/-- The flag of the last emitted report, when the caller asked for
start+stop and the running flag is one of the two values it takes in the
source (FT260_FLAG_START on entry, 0 afterwards): it has the stop bit. -/
theorem ft260_i2c_write_loop_last_flag (addr : Nat) (data : List Nat)
    (curFlag : Nat)
    (hcf : curFlag = FT260_FLAG_START ∨ curFlag = FT260_FLAG_NONE) :
    ∀ r, (ft260_i2c_write_loop addr data FT260_FLAG_START_STOP
            curFlag).getLast? = some r →
      r.flag &&& FT260_FLAG_STOP = FT260_FLAG_STOP := by
  intro r hr
  rw [ft260_i2c_write_loop] at hr
  split at hr
  · simp only [List.getLast?_singleton, Option.some.injEq] at hr
    subst hr
    rcases hcf with h | h <;> subst h <;>
      (simp [FT260_FLAG_START, FT260_FLAG_NONE, FT260_FLAG_STOP,
        FT260_FLAG_START_STOP]; try decide)
  · obtain ⟨y, t, hyt⟩ := List.exists_cons_of_ne_nil
      (ft260_i2c_write_loop_ne_nil addr (data.drop FT260_WR_DATA_MAX)
        FT260_FLAG_START_STOP FT260_FLAG_NONE)
    rw [hyt, List.getLast?_cons_cons, ← hyt] at hr
    exact ft260_i2c_write_loop_last_flag addr (data.drop FT260_WR_DATA_MAX)
      FT260_FLAG_NONE (Or.inr rfl) r hr
termination_by data.length
decreasing_by
  simp only [List.length_drop]
  simp only [FT260_WR_DATA_MAX] at *
  omega

/-- Once the running flag is 0 every emitted report except the last has
flag 0. -/
theorem ft260_i2c_write_loop_zero_flag (addr : Nat) (data : List Nat)
    (flag : Nat) :
    ∀ j r, j + 1 < (ft260_i2c_write_loop addr data flag FT260_FLAG_NONE).length →
      (ft260_i2c_write_loop addr data flag FT260_FLAG_NONE)[j]? = some r →
      r.flag = FT260_FLAG_NONE := by
  intro j r hj hr
  by_cases hc : data.length ≤ FT260_WR_DATA_MAX
  · rw [ft260_i2c_write_loop, dif_pos hc] at hj
    simp at hj
  · rw [ft260_i2c_write_loop, dif_neg hc] at hj hr
    simp only [List.length_cons] at hj
    match j with
    | 0 =>
      simp only [List.getElem?_cons_zero, Option.some.injEq] at hr
      subst hr
      rfl
    | j + 1 =>
      rw [List.getElem?_cons_succ] at hr
      exact ft260_i2c_write_loop_zero_flag addr (data.drop FT260_WR_DATA_MAX)
        flag j r (by omega) hr
termination_by data.length
decreasing_by
  simp only [List.length_drop]
  simp only [FT260_WR_DATA_MAX] at *
  omega

/-- Index form of the intermediate-flag property of the chunking loop as
entered by ft260_i2c_write (running flag FT260_FLAG_START): every report
other than the first and the last carries flag 0. -/
theorem ft260_i2c_write_loop_mid_flag (addr : Nat) (data : List Nat)
    (flag : Nat) :
    ∀ i r, 0 < i →
      i + 1 < (ft260_i2c_write_loop addr data flag FT260_FLAG_START).length →
      (ft260_i2c_write_loop addr data flag FT260_FLAG_START)[i]? = some r →
      r.flag = FT260_FLAG_NONE := by
  intro i r h0 hip hr
  by_cases hc : data.length ≤ FT260_WR_DATA_MAX
  · rw [ft260_i2c_write_loop, dif_pos hc] at hip
    simp at hip
  · rw [ft260_i2c_write_loop, dif_neg hc] at hip hr
    obtain ⟨j, rfl⟩ : ∃ j, i = j + 1 := ⟨i - 1, by omega⟩
    rw [List.getElem?_cons_succ] at hr
    simp only [List.length_cons] at hip
    exact ft260_i2c_write_loop_zero_flag addr (data.drop FT260_WR_DATA_MAX)
      flag j r (by omega) hr

/-- **C1.** For every I2C write of a buffer of L bytes (L at least 1)
issued with the start+stop flag, ft260_i2c_write sends exactly
ceil(L / 60) write-request reports; the first report carries the start
condition, the last report carries the stop condition, every intermediate
report carries flag 0, and the concatenation of the report payloads
equals the input buffer. -/
theorem c1_i2c_write_report_sequence (env : I2cEnv) (st : I2cState)
    (addr : Nat) (data : List Nat) (hL : 1 ≤ data.length) :
    ∃ reps,
      (ft260_i2c_write env st addr data FT260_FLAG_START_STOP).2 = .ok reps ∧
      reps.length = (data.length + 59) / 60 ∧
      (∀ r, reps.head? = some r →
        r.flag &&& FT260_FLAG_START = FT260_FLAG_START) ∧
      (∀ r, reps.getLast? = some r →
        r.flag &&& FT260_FLAG_STOP = FT260_FLAG_STOP) ∧
      (∀ i r, 0 < i → i + 1 < reps.length → reps[i]? = some r →
        r.flag = FT260_FLAG_NONE) ∧
      (reps.map I2cWriteReport.data).flatten = data := by
  refine ⟨ft260_i2c_write_loop addr data FT260_FLAG_START_STOP FT260_FLAG_START,
    ?_, ?_, ?_, ?_, ?_, ?_⟩
  · unfold ft260_i2c_write
    rw [if_neg (by omega)]
  · exact ft260_i2c_write_loop_length addr data _ _ hL
  · intro r hr
    have h := ft260_i2c_write_loop_head_flag addr data FT260_FLAG_START_STOP
      FT260_FLAG_START r hr
    rw [h]
    split <;> decide
  · exact ft260_i2c_write_loop_last_flag addr data FT260_FLAG_START (Or.inl rfl)
  · exact ft260_i2c_write_loop_mid_flag addr data FT260_FLAG_START_STOP
  · exact ft260_i2c_write_loop_flatten addr data _ _

/-- Witness for C1: a concrete 130-byte write. -/
theorem c1_i2c_write_report_sequence_witness :
    1 ≤ (List.replicate 130 7 : List Nat).length ∧
    (∃ reps,
      (ft260_i2c_write ⟨100⟩ ⟨0, none, 0, 0, []⟩ 0x50 (List.replicate 130 7)
        FT260_FLAG_START_STOP).2 = .ok reps ∧
      reps.length = ((List.replicate 130 7 : List Nat).length + 59) / 60 ∧
      (∀ r, reps.head? = some r →
        r.flag &&& FT260_FLAG_START = FT260_FLAG_START) ∧
      (∀ r, reps.getLast? = some r →
        r.flag &&& FT260_FLAG_STOP = FT260_FLAG_STOP) ∧
      (∀ i r, 0 < i → i + 1 < reps.length → reps[i]? = some r →
        r.flag = FT260_FLAG_NONE) ∧
      (reps.map I2cWriteReport.data).flatten = List.replicate 130 7) :=
  ⟨by simp,
   c1_i2c_write_report_sequence ⟨100⟩ ⟨0, none, 0, 0, []⟩ 0x50
     (List.replicate 130 7) (by simp)⟩

/-- **C10.** For every I2C write request with length below 1 byte,
ft260_i2c_write returns -EINVAL immediately, emits no output report, and
leaves the bridge state (clock cache, read descriptor, write staging
buffer) unchanged. -/
theorem c10_i2c_write_short_rejected (env : I2cEnv) (st : I2cState)
    (addr flag : Nat) (data : List Nat) (h : data.length < 1) :
    ft260_i2c_write env st addr data flag = (st, .error EINVAL) := by
  unfold ft260_i2c_write
  rw [if_pos h]

/-- Witness for C10: the empty buffer. -/
theorem c10_i2c_write_short_rejected_witness :
    ft260_i2c_write ⟨77⟩ ⟨42, none, 3, 9, [1, 2]⟩ 0x50 [] 0x06
      = (⟨42, none, 3, 9, [1, 2]⟩, .error EINVAL) :=
  c10_i2c_write_short_rejected ⟨77⟩ ⟨42, none, 3, 9, [1, 2]⟩ 0x50 0x06 []
    (by decide)

/-! ### I2C read path: ft260_i2c_read -/

/-- An outbound I2C read request report
(struct ft260_i2c_read_request_report): report ID 0xC2, address,
condition flag, 16-bit requested length. -/
structure I2cReadRequest where
  report : Nat
  address : Nat
  flag : Nat
  length : Nat
  deriving Repr, DecidableEq

/-- The running value of the local rd_data_max of ft260_i2c_read: it
starts at 60 and is set to FT260_RD_DATA_MAX after the first iteration;
the Bool `first` tracks which of the two values it holds. -/
def ft260_rd_data_max (first : Bool) : Nat :=
  if first then 60 else FT260_RD_DATA_MAX

/-- The running rd_data_max is positive. -/
theorem ft260_rd_data_max_pos (first : Bool) : 0 < ft260_rd_data_max first := by
  cases first <;> simp [ft260_rd_data_max, FT260_RD_DATA_MAX]

/-- The running rd_data_max never exceeds FT260_RD_DATA_MAX. -/
theorem ft260_rd_data_max_le (first : Bool) :
    ft260_rd_data_max first ≤ FT260_RD_DATA_MAX := by
  cases first <;> simp [ft260_rd_data_max, FT260_RD_DATA_MAX]

/-- The do/while loop of ft260_i2c_read.  When the remaining length fits
in the running rd_data_max the stop condition is OR-ed into the flag and
the loop ends; otherwise a full rd_data_max chunk is requested and the
flag is zeroed for the next iteration. -/
def ft260_i2c_read_loop (addr : Nat) (len : Nat) (flag : Nat)
    (first : Bool) : List I2cReadRequest :=
  if _h : len ≤ ft260_rd_data_max first then
    [{ report := FT260_I2C_READ_REQ, address := addr,
       flag := flag ||| FT260_FLAG_STOP, length := len }]
  else
    { report := FT260_I2C_READ_REQ, address := addr, flag := flag,
      length := ft260_rd_data_max first } ::
      ft260_i2c_read_loop addr (len - ft260_rd_data_max first)
        FT260_FLAG_NONE false
termination_by len
decreasing_by
  have := ft260_rd_data_max_pos first
  omega

/-- ft260_i2c_read: the condition flag is normalized (repeated start when
the caller passed all the bits of FT260_FLAG_START_REPEATED, plain start
otherwise) and the chunk loop runs; each request is sent as one output
report and the inbound chunks are awaited (success path). -/
def ft260_i2c_read_requests (addr : Nat) (len : Nat) (flag : Nat) :
    List I2cReadRequest :=
  if flag &&& FT260_FLAG_START_REPEATED = FT260_FLAG_START_REPEATED then
    ft260_i2c_read_loop addr len FT260_FLAG_START_REPEATED true
  else
    ft260_i2c_read_loop addr len FT260_FLAG_START true

/-- The read loop always emits at least one request. -/
theorem ft260_i2c_read_loop_ne_nil (addr len flag : Nat) (first : Bool) :
    ft260_i2c_read_loop addr len flag first ≠ [] := by
  rw [ft260_i2c_read_loop]
  split <;> simp

/-- The requested chunk lengths sum to the total read length. -/
theorem ft260_i2c_read_loop_sum (addr len flag : Nat) (first : Bool) :
    ((ft260_i2c_read_loop addr len flag first).map I2cReadRequest.length).sum
      = len := by
  rw [ft260_i2c_read_loop]
  split
  · simp
  · rename_i h
    simp only [List.map_cons, List.sum_cons]
    rw [ft260_i2c_read_loop_sum]
    omega
termination_by len
decreasing_by
  have := ft260_rd_data_max_pos first
  omega

/-- Every requested chunk length is at most FT260_RD_DATA_MAX (180).
In particular, every value the loop stores into dev->read_len is at
most 180. -/
theorem ft260_i2c_read_loop_len_le (addr len flag : Nat) (first : Bool) :
    ∀ r ∈ ft260_i2c_read_loop addr len flag first,
      r.length ≤ FT260_RD_DATA_MAX := by
  intro r hr
  rw [ft260_i2c_read_loop] at hr
  split at hr
  · rename_i h
    simp only [List.mem_singleton] at hr
    subst hr
    exact le_trans h (ft260_rd_data_max_le first)
  · rcases List.mem_cons.mp hr with h1 | h1
    · subst h1
      exact ft260_rd_data_max_le first
    · exact ft260_i2c_read_loop_len_le addr _ FT260_FLAG_NONE false r h1
termination_by len
decreasing_by
  have := ft260_rd_data_max_pos first
  omega

/-- The first requested chunk length is at most 60. -/
theorem ft260_i2c_read_loop_head_len (addr len flag : Nat) :
    ∀ r, (ft260_i2c_read_loop addr len flag true).head? = some r →
      r.length ≤ 60 := by
  intro r hr
  rw [ft260_i2c_read_loop] at hr
  split at hr <;>
    simp only [List.head?_cons, Option.some.injEq] at hr <;> subst hr
  · rename_i h
    simpa [ft260_rd_data_max] using h
  · simp [ft260_rd_data_max]

/-- The last emitted request carries the stop condition, for the flag
values the loop is entered with (start, repeated start, or 0 after the
first iteration). -/
theorem ft260_i2c_read_loop_last_flag (addr len flag : Nat) (first : Bool)
    (hf : flag = FT260_FLAG_START ∨ flag = FT260_FLAG_START_REPEATED ∨
          flag = FT260_FLAG_NONE) :
    ∀ r, (ft260_i2c_read_loop addr len flag first).getLast? = some r →
      r.flag &&& FT260_FLAG_STOP = FT260_FLAG_STOP := by
  intro r hr
  rw [ft260_i2c_read_loop] at hr
  split at hr
  · simp only [List.getLast?_singleton, Option.some.injEq] at hr
    subst hr
    rcases hf with h | h | h <;> subst h <;>
      (simp [FT260_FLAG_START, FT260_FLAG_START_REPEATED, FT260_FLAG_NONE,
        FT260_FLAG_STOP]; try decide)
  · obtain ⟨y, t, hyt⟩ := List.exists_cons_of_ne_nil
      (ft260_i2c_read_loop_ne_nil addr
        (len - ft260_rd_data_max first) FT260_FLAG_NONE false)
    rw [hyt, List.getLast?_cons_cons, ← hyt] at hr
    exact ft260_i2c_read_loop_last_flag addr _ FT260_FLAG_NONE false
      (Or.inr (Or.inr rfl)) r hr
termination_by len
decreasing_by
  have := ft260_rd_data_max_pos first
  omega

/-- **C2.** For every I2C read of length L at least 1, ft260_i2c_read
issues a sequence of read-request reports in which the first requested
chunk length is at most 60, every subsequent chunk length is at most
180, the stop condition is attached to the final chunk, and the
requested chunk lengths sum to L. -/
theorem c2_i2c_read_request_sequence (addr len flag : Nat)
    (_hL : 1 ≤ len) :
    (∀ r, (ft260_i2c_read_requests addr len flag).head? = some r →
      r.length ≤ 60) ∧
    (∀ r ∈ ft260_i2c_read_requests addr len flag,
      r.length ≤ FT260_RD_DATA_MAX) ∧
    (∀ r, (ft260_i2c_read_requests addr len flag).getLast? = some r →
      r.flag &&& FT260_FLAG_STOP = FT260_FLAG_STOP) ∧
    ((ft260_i2c_read_requests addr len flag).map I2cReadRequest.length).sum
      = len := by
  unfold ft260_i2c_read_requests
  split
  · exact ⟨ft260_i2c_read_loop_head_len addr len _,
      ft260_i2c_read_loop_len_le addr len _ true,
      ft260_i2c_read_loop_last_flag addr len _ true (Or.inr (Or.inl rfl)),
      ft260_i2c_read_loop_sum addr len _ true⟩
  · exact ⟨ft260_i2c_read_loop_head_len addr len _,
      ft260_i2c_read_loop_len_le addr len _ true,
      ft260_i2c_read_loop_last_flag addr len _ true (Or.inl rfl),
      ft260_i2c_read_loop_sum addr len _ true⟩

/-- Witness for C2: a 130-byte read with the start+stop flag
(chunks 60 and 70). -/
theorem c2_i2c_read_request_sequence_witness :
    (1 : Nat) ≤ 130 ∧
    ((∀ r, (ft260_i2c_read_requests 0x50 130 FT260_FLAG_START_STOP).head?
        = some r → r.length ≤ 60) ∧
     (∀ r ∈ ft260_i2c_read_requests 0x50 130 FT260_FLAG_START_STOP,
        r.length ≤ FT260_RD_DATA_MAX) ∧
     (∀ r, (ft260_i2c_read_requests 0x50 130 FT260_FLAG_START_STOP).getLast?
        = some r → r.flag &&& FT260_FLAG_STOP = FT260_FLAG_STOP) ∧
     ((ft260_i2c_read_requests 0x50 130 FT260_FLAG_START_STOP).map
        I2cReadRequest.length).sum = 130) :=
  ⟨by decide, c2_i2c_read_request_sequence 0x50 130 FT260_FLAG_START_STOP
    (by decide)⟩

/-! ### Combined write-then-read: ft260_i2c_write_read -/

/-- A transport call issued through the HID layer. -/
inductive HidCall where
  | outputWrite (r : I2cWriteReport)
  | outputRead (r : I2cReadRequest)
  | getFeature (reportId : Nat)
  | setFeature (reportId : Nat)
  deriving Repr, DecidableEq

/-- Transport calls of ft260_i2c_write on the success path: each chunk is
one output report followed by one I2C status poll (which succeeds at the
first try, with no wakeup refresh due). -/
def ft260_i2c_write_calls (addr : Nat) (data : List Nat) (flag : Nat) :
    List HidCall :=
  (ft260_i2c_write_loop addr data flag FT260_FLAG_START).flatMap
    (fun r => [.outputWrite r, .getFeature FT260_I2C_STATUS])

/-- Transport calls of ft260_i2c_read on the success path: each chunk is
one output report followed by one I2C status poll. -/
def ft260_i2c_read_calls (addr len flag : Nat) : List HidCall :=
  (ft260_i2c_read_requests addr len flag).flatMap
    (fun r => [.outputRead r, .getFeature FT260_I2C_STATUS])

/-- ft260_i2c_write_read: a combined write-then-read transfer.  A write
phase longer than 2 bytes is rejected with -EOPNOTSUPP before any
transport call; an empty write phase is rejected with -EINVAL by the
guard of ft260_i2c_write, again before any transport call; otherwise the
write is issued with start only, then the read with repeated start and
stop (success path). -/
def ft260_i2c_write_read (addr : Nat) (wrData : List Nat) (rdLen : Nat) :
    Except Nat Unit × List HidCall :=
  if 2 < wrData.length then
    (.error EOPNOTSUPP, [])
  else if wrData.length < 1 then
    (.error EINVAL, [])
  else
    (.ok (), ft260_i2c_write_calls addr wrData FT260_FLAG_START ++
             ft260_i2c_read_calls addr rdLen FT260_FLAG_START_STOP_REPEATED)

/-- **C3.** Every combined write-then-read transfer whose write phase is
3 or more bytes returns -EOPNOTSUPP and issues no transport call (no
output report and no feature report) before returning. -/
theorem c3_write_read_long_write_rejected (addr : Nat) (wrData : List Nat)
    (rdLen : Nat) (h : 3 ≤ wrData.length) :
    ft260_i2c_write_read addr wrData rdLen = (.error EOPNOTSUPP, []) := by
  unfold ft260_i2c_write_read
  rw [if_pos (by omega)]

/-- Witness for C3: a 3-byte write phase. -/
theorem c3_write_read_long_write_rejected_witness :
    ft260_i2c_write_read 0x50 [1, 2, 3] 16 = (.error EOPNOTSUPP, []) :=
  c3_write_read_long_write_rejected 0x50 [1, 2, 3] 16 (by decide)

/-! ### Inbound dispatch: ft260_raw_event -/

/-- An inbound input report (struct ft260_input_report): report ID,
length field, payload bytes. -/
structure InputReport where
  report : Nat
  length : Nat
  data : List Nat
  deriving Repr, DecidableEq

/-- ft260_uart_receive_chars: rejects a frame whose length field exceeds
FT260_RD_DATA_MAX with -EBADR; otherwise pushes the bytes to the tty
flip buffer (success path: all inserted) and returns them. -/
def ft260_uart_receive_chars (data : List Nat) (length : Nat) :
    Except Nat (List Nat) :=
  if FT260_RD_DATA_MAX < length then .error EBADR
  else .ok (data.take length)

/-- Outcome of ft260_raw_event. -/
inductive RawEventOutcome where
  /-- I2C chunk appended; the Bool records whether the completion was
  signalled. -/
  | accepted (completed : Bool)
  /-- Unexpected I2C data report: no read in flight or chunk overflow;
  the handler returns -1 and touches nothing. -/
  | rejected
  /-- Length field above FT260_RD_DATA_MAX outside the I2C range: the
  handler returns -EBADR. -/
  | oversized
  /-- Forwarded to ft260_uart_receive_chars. -/
  | uartForwarded (data : List Nat) (length : Nat)
  /-- Unknown report ID: logged and dropped, return 0. -/
  | unhandled
  deriving Repr, DecidableEq

/-- ft260_raw_event: the shared dispatch of inbound reports.  A report ID
in the I2C data range is treated as a read-completion chunk: rejected
when no read is in flight or when the length exceeds the remaining
expected bytes (the C comparison promotes the u16 fields to int, hence
the Int arithmetic); otherwise the payload is appended at the current
offset, the offset advances, and the completion fires exactly when the
accumulated bytes reach the requested chunk length.  Otherwise a length
above FT260_RD_DATA_MAX is rejected, a UART-range report is forwarded to
the receive path, and anything else is dropped. -/
def ft260_raw_event (st : I2cState) (xfer : InputReport) :
    I2cState × RawEventOutcome :=
  if FT260_I2C_REPORT_MIN ≤ xfer.report ∧ xfer.report ≤ FT260_I2C_REPORT_MAX then
    match st.read_buf with
    | none => (st, .rejected)
    | some buf =>
      if (st.read_len : Int) - (st.read_idx : Int) < (xfer.length : Int) then
        (st, .rejected)
      else
        ({ st with
            read_buf := some (buf ++ xfer.data.take xfer.length)
            read_idx := st.read_idx + xfer.length },
         .accepted (st.read_idx + xfer.length == st.read_len))
  else if FT260_RD_DATA_MAX < xfer.length then
    (st, .oversized)
  else if FT260_UART_REPORT_MIN ≤ xfer.report ∧
          xfer.report ≤ FT260_UART_REPORT_MAX then
    (st, .uartForwarded xfer.data xfer.length)
  else
    (st, .unhandled)

/-- **C4.** For every inbound report whose ID lies in the I2C data range,
the dispatch rejects it (protocol error, state and buffer untouched) when
no read is in flight or when its length exceeds the remaining expected
bytes; otherwise it appends the payload at the current offset, advances
the offset, and signals completion exactly when the accumulated bytes
equal the requested chunk length. -/
theorem c4_raw_event_i2c_chunk (st : I2cState) (xfer : InputReport)
    (hid : FT260_I2C_REPORT_MIN ≤ xfer.report ∧
           xfer.report ≤ FT260_I2C_REPORT_MAX) :
    (st.read_buf = none → ft260_raw_event st xfer = (st, .rejected)) ∧
    (∀ buf, st.read_buf = some buf →
      ((st.read_len : Int) - (st.read_idx : Int) < (xfer.length : Int) →
        ft260_raw_event st xfer = (st, .rejected)) ∧
      ((xfer.length : Int) ≤ (st.read_len : Int) - (st.read_idx : Int) →
        ft260_raw_event st xfer =
          ({ st with
              read_buf := some (buf ++ xfer.data.take xfer.length)
              read_idx := st.read_idx + xfer.length },
           .accepted (st.read_idx + xfer.length == st.read_len)))) := by
  refine ⟨?_, ?_⟩
  · intro h
    simp [ft260_raw_event, h, hid.1, hid.2]
  · intro buf h
    refine ⟨?_, ?_⟩
    · intro hgt
      simp [ft260_raw_event, h, hid.1, hid.2, hgt]
    · intro hle
      simp [ft260_raw_event, h, hid.1, hid.2, not_lt.mpr hle]

/-- Witness for C4: an in-flight 4-byte read receiving a 4-byte chunk. -/
theorem c4_raw_event_i2c_chunk_witness :
    (FT260_I2C_REPORT_MIN ≤ 0xD0 ∧ (0xD0 : Nat) ≤ FT260_I2C_REPORT_MAX) ∧
    (((⟨100, some [], 0, 4, []⟩ : I2cState).read_buf = none →
      ft260_raw_event ⟨100, some [], 0, 4, []⟩ ⟨0xD0, 4, [9, 8, 7, 6]⟩
        = (⟨100, some [], 0, 4, []⟩, .rejected)) ∧
     (∀ buf, (⟨100, some [], 0, 4, []⟩ : I2cState).read_buf = some buf →
      ((((4 : Nat) : Int) - ((0 : Nat) : Int) < (((4 : Nat) : Int)) →
        ft260_raw_event ⟨100, some [], 0, 4, []⟩ ⟨0xD0, 4, [9, 8, 7, 6]⟩
          = (⟨100, some [], 0, 4, []⟩, .rejected)) ∧
       ((((4 : Nat) : Int)) ≤ ((4 : Nat) : Int) - ((0 : Nat) : Int) →
        ft260_raw_event ⟨100, some [], 0, 4, []⟩ ⟨0xD0, 4, [9, 8, 7, 6]⟩
          = (⟨100, some (buf ++ [9, 8, 7, 6].take 4), 0 + 4, 4, []⟩,
             .accepted (0 + 4 == 4)))))) :=
  ⟨by decide,
   c4_raw_event_i2c_chunk ⟨100, some [], 0, 4, []⟩ ⟨0xD0, 4, [9, 8, 7, 6]⟩
     (by decide)⟩

/-- **C5.** Every inbound report whose length field exceeds 180 is
rejected regardless of report ID — under the read-path invariant that the
requested chunk length is at most 180 — and is never forwarded to the
UART receive path; the receive routine itself would also reject such a
frame with -EBADR. -/
theorem c5_raw_event_oversized_rejected (st : I2cState) (xfer : InputReport)
    (hinv : st.read_len ≤ FT260_RD_DATA_MAX)
    (hlen : FT260_RD_DATA_MAX < xfer.length) :
    ((ft260_raw_event st xfer).2 = .rejected ∨
     (ft260_raw_event st xfer).2 = .oversized) ∧
    (∀ d l, (ft260_raw_event st xfer).2 ≠ .uartForwarded d l) ∧
    ft260_uart_receive_chars xfer.data xfer.length = .error EBADR := by
  have hout : (ft260_raw_event st xfer).2 = .rejected ∨
      (ft260_raw_event st xfer).2 = .oversized := by
    by_cases hid : FT260_I2C_REPORT_MIN ≤ xfer.report ∧
        xfer.report ≤ FT260_I2C_REPORT_MAX
    · left
      cases hbuf : st.read_buf with
      | none => simp [ft260_raw_event, hid.1, hid.2, hbuf]
      | some buf =>
        have hgt : (st.read_len : Int) - (st.read_idx : Int)
            < (xfer.length : Int) := by
          simp only [FT260_RD_DATA_MAX] at hinv hlen
          omega
        simp [ft260_raw_event, hid.1, hid.2, hbuf, hgt]
    · right
      simp [ft260_raw_event, hid, hlen]
  refine ⟨hout, ?_, ?_⟩
  · intro d l hcon
    rcases hout with h | h <;> rw [h] at hcon <;> simp at hcon
  · unfold ft260_uart_receive_chars
    rw [if_pos hlen]

/-- Witness for C5: a 200-byte frame with a UART-range report ID while a
read of 4 bytes is pending. -/
theorem c5_raw_event_oversized_rejected_witness :
    ((⟨100, some [], 0, 4, []⟩ : I2cState).read_len ≤ FT260_RD_DATA_MAX ∧
     FT260_RD_DATA_MAX <
       (⟨0xF0, 200, List.replicate 200 1⟩ : InputReport).length) ∧
    (((ft260_raw_event ⟨100, some [], 0, 4, []⟩
          ⟨0xF0, 200, List.replicate 200 1⟩).2 = .rejected ∨
      (ft260_raw_event ⟨100, some [], 0, 4, []⟩
          ⟨0xF0, 200, List.replicate 200 1⟩).2 = .oversized) ∧
     (∀ d l, (ft260_raw_event ⟨100, some [], 0, 4, []⟩
          ⟨0xF0, 200, List.replicate 200 1⟩).2 ≠ .uartForwarded d l) ∧
     ft260_uart_receive_chars (List.replicate 200 1) 200 = .error EBADR) :=
  ⟨⟨by decide, by decide⟩,
   c5_raw_event_oversized_rejected ⟨100, some [], 0, 4, []⟩
     ⟨0xF0, 200, List.replicate 200 1⟩ (by decide) (by decide)⟩

/-! ### Status-poll timing: ft260_hid_output_report_check_status -/

/-- The transfer-time estimate of ft260_hid_output_report_check_status:
usec = len * 9000 / clock, where len is the byte length of the whole
output report passed in. -/
def ft260_xfer_usec (len clock : Nat) : Nat := len * 9000 / clock

/-- The sleep decision of ft260_hid_output_report_check_status: when the
estimate exceeds 2000 us the routine sleeps for (estimate - 1500) us
before polling status, otherwise it does not sleep. -/
def ft260_check_status_sleep (len clock : Nat) : Option Nat :=
  if 2000 < ft260_xfer_usec len clock then
    some (ft260_xfer_usec len clock - 1500)
  else none

/-- ft260_i2c_write passes wr_len + 4 as the report length of a chunk
with payload wr_len (report ID, address, flag and length header bytes
plus the payload), so this is the sleep performed after a chunk with
payload p at cached clock c. -/
def ft260_write_chunk_sleep (p clock : Nat) : Option Nat :=
  ft260_check_status_sleep (p + 4) clock

/-- The sleep C6 claims, transcribed from the claim text: computed from
the payload length alone, p * 9000 / c. -/
def spec_claimed_chunk_sleep (p clock : Nat) : Option Nat :=
  if 2000 < p * 9000 / clock then some (p * 9000 / clock - 1500)
  else none

/-- Counterexample to C6: for a 60-byte payload at 100 kHz the code
sleeps (64 * 9000 / 100) - 1500 = 4260 us, while the claimed formula
gives (60 * 9000 / 100) - 1500 = 3900 us. -/
theorem c6_chunk_sleep_counterexample :
    ft260_write_chunk_sleep 60 100 = some 4260 ∧
    spec_claimed_chunk_sleep 60 100 = some 3900 ∧
    ft260_write_chunk_sleep 60 100 ≠ spec_claimed_chunk_sleep 60 100 := by
  decide

/-- **C6 (amended).** After sending each write chunk with payload of p
bytes while the cached bus clock is c kHz, the engine computes the
expected transfer time over the whole report, (p + 4) * 9000 / c
microseconds (payload plus the 4 header bytes), and sleeps before
polling status if and only if that value exceeds 2000 us, in which case
the sleep lasts (expected - 1500) us. -/
theorem c6_amended_chunk_sleep (p c : Nat) (_hc : 0 < c) :
    (ft260_write_chunk_sleep p c = none ↔ (p + 4) * 9000 / c ≤ 2000) ∧
    (∀ u, ft260_write_chunk_sleep p c = some u →
      2000 < (p + 4) * 9000 / c ∧ u = (p + 4) * 9000 / c - 1500) := by
  unfold ft260_write_chunk_sleep ft260_check_status_sleep ft260_xfer_usec
  split
  · rename_i h
    refine ⟨by simp; omega, ?_⟩
    intro u hu
    simp only [Option.some.injEq] at hu
    exact ⟨h, hu.symm⟩
  · rename_i h
    refine ⟨by simp; omega, ?_⟩
    intro u hu
    simp at hu

/-- Witness for the amended C6: payload 60 at clock 100 kHz. -/
theorem c6_amended_chunk_sleep_witness :
    (0 : Nat) < 100 ∧
    ((ft260_write_chunk_sleep 60 100 = none ↔
        (60 + 4) * 9000 / 100 ≤ 2000) ∧
     (∀ u, ft260_write_chunk_sleep 60 100 = some u →
        2000 < (60 + 4) * 9000 / 100 ∧ u = (60 + 4) * 9000 / 100 - 1500)) :=
  ⟨by decide, c6_amended_chunk_sleep 60 100 (by decide)⟩

/-! ### UART transmit path: ft260_uart_write / ft260_uart_transmit_chars -/

/-- An outbound UART data report
(struct ft260_uart_write_request_report): report ID keyed by the chunk
length, length field, payload bytes. -/
structure UartTxReport where
  report : Nat
  length : Nat
  data : List Nat
  deriving Repr, DecidableEq

/-- The do/while drain loop of ft260_uart_transmit_chars: each iteration
pops min(data_len, FT260_WR_DATA_MAX) bytes from the fifo, frames them
with the length-keyed report ID, and sends the frame as one output
report (success path: every send succeeds). -/
def ft260_uart_drain (fifo : List Nat) : List UartTxReport :=
  if _h : fifo.length ≤ FT260_WR_DATA_MAX then
    [{ report := FT260_UART_DATA_REPORT_ID fifo.length,
       length := fifo.length, data := fifo }]
  else
    { report := FT260_UART_DATA_REPORT_ID FT260_WR_DATA_MAX,
      length := FT260_WR_DATA_MAX,
      data := fifo.take FT260_WR_DATA_MAX } ::
      ft260_uart_drain (fifo.drop FT260_WR_DATA_MAX)
termination_by fifo.length
decreasing_by
  simp only [List.length_drop]
  simp only [FT260_WR_DATA_MAX] at *
  omega

/-- ft260_uart_transmit_chars: with no tty or an empty fifo it returns
-EINVAL; otherwise it drains the whole fifo into up-to-60-byte frames
(success path: every send succeeds and no concurrent writer refills the
fifo during the drain, so the fifo is empty afterwards) and wakes the
tty writers when the free space afterwards exceeds
TTY_WAKEUP_WATERMARK.  Returns the emitted frames, the fifo contents
afterwards, and whether the wakeup was issued. -/
def ft260_uart_transmit_chars (ttyPresent : Bool) (fifo : List Nat) :
    Except Nat (List UartTxReport × List Nat × Bool) :=
  if ¬ttyPresent ∨ fifo.length = 0 then
    .error EINVAL
  else
    .ok (ft260_uart_drain fifo, [],
      decide (TTY_WAKEUP_WATERMARK < FIFO_SIZE - ([] : List Nat).length))

/-- ft260_uart_write: kfifo_in enqueues as many bytes as fit in the free
space of the transmit fifo, then the drain runs.  A drain failure makes
the call return 0; otherwise bytes still left in the fifo reduce the
returned count (on the success path none are left, so the enqueued count
is returned).  Returns the count reported to the tty layer, the fifo
afterwards, and the emitted frames. -/
def ft260_uart_write (ttyPresent : Bool) (fifo : List Nat)
    (buf : List Nat) : Nat × List Nat × List UartTxReport :=
  let len := min buf.length (FIFO_SIZE - fifo.length)
  let fifo1 := fifo ++ buf.take len
  match ft260_uart_transmit_chars ttyPresent fifo1 with
  | .error _ => (0, fifo1, [])
  | .ok (reps, fifo2, _) =>
      if 0 < fifo2.length then (len - fifo2.length, fifo2, reps)
      else (len, fifo2, reps)

/-- Concatenating the payloads of the drained frames recovers the fifo
contents. -/
theorem ft260_uart_drain_flatten (fifo : List Nat) :
    ((ft260_uart_drain fifo).map UartTxReport.data).flatten = fifo := by
  rw [ft260_uart_drain]
  split
  · simp
  · simp only [List.map_cons, List.flatten_cons]
    rw [ft260_uart_drain_flatten]
    exact List.take_append_drop _ _
termination_by fifo.length
decreasing_by
  simp only [List.length_drop]
  simp only [FT260_WR_DATA_MAX] at *
  omega

/-- The drain emits ceil(n / 60) frames for a nonempty fifo. -/
theorem ft260_uart_drain_length (fifo : List Nat) (h1 : 1 ≤ fifo.length) :
    (ft260_uart_drain fifo).length = (fifo.length + 59) / 60 := by
  rw [ft260_uart_drain]
  split
  · rename_i h
    simp only [List.length_singleton]
    simp only [FT260_WR_DATA_MAX] at h
    omega
  · rename_i h
    simp only [List.length_cons]
    rw [ft260_uart_drain_length]
    · simp only [List.length_drop]
      simp only [FT260_WR_DATA_MAX] at h ⊢
      omega
    · simp only [List.length_drop]
      simp only [FT260_WR_DATA_MAX] at h ⊢
      omega
termination_by fifo.length
decreasing_by
  simp only [List.length_drop]
  simp only [FT260_WR_DATA_MAX] at *
  omega

/-- **C7.** For every UART write of N bytes with a tty attached: the
returned count always equals the number of bytes actually enqueued,
min(N, free space); in particular when N is at most the free space of
the 256-byte transmit queue the call returns N.  Whenever the queue is
nonempty after the enqueue (and all transport sends succeed), the drain
emits ceil(drained length / 60) output reports whose payload
concatenation equals the queue contents (prior residue followed by the
newly enqueued bytes).  Truncation is reported only through the reduced
count, never as an error. -/
theorem c7_uart_write_contract (fifo buf : List Nat) :
    ((ft260_uart_write true fifo buf).1
        = min buf.length (FIFO_SIZE - fifo.length)) ∧
    (buf.length ≤ FIFO_SIZE - fifo.length →
      (ft260_uart_write true fifo buf).1 = buf.length) ∧
    (1 ≤ fifo.length + min buf.length (FIFO_SIZE - fifo.length) →
      (ft260_uart_write true fifo buf).2.2.length
        = (fifo.length + min buf.length (FIFO_SIZE - fifo.length) + 59) / 60 ∧
      ((ft260_uart_write true fifo buf).2.2.map UartTxReport.data).flatten
        = fifo ++ buf.take (min buf.length (FIFO_SIZE - fifo.length))) := by
  have hlen1 : (fifo ++ buf.take (min buf.length (FIFO_SIZE - fifo.length))).length
      = fifo.length + min buf.length (FIFO_SIZE - fifo.length) := by
    simp only [List.length_append, List.length_take]
    omega
  by_cases h0 :
      (fifo ++ buf.take (min buf.length (FIFO_SIZE - fifo.length))).length = 0
  · have hw : ft260_uart_write true fifo buf
        = (0, fifo ++ buf.take (min buf.length (FIFO_SIZE - fifo.length)), []) := by
      simp [ft260_uart_write, ft260_uart_transmit_chars, h0]
    rw [hw]
    refine ⟨by omega, ?_, ?_⟩
    · intro hle
      simp only [FIFO_SIZE] at *
      omega
    · intro h1
      omega
  · have ht : ft260_uart_transmit_chars true
        (fifo ++ buf.take (min buf.length (FIFO_SIZE - fifo.length)))
        = .ok (ft260_uart_drain
            (fifo ++ buf.take (min buf.length (FIFO_SIZE - fifo.length))), [],
          decide (TTY_WAKEUP_WATERMARK < FIFO_SIZE - ([] : List Nat).length)) := by
      unfold ft260_uart_transmit_chars
      rw [if_neg (by push_neg; exact ⟨rfl, h0⟩)]
    have hw : ft260_uart_write true fifo buf
        = (min buf.length (FIFO_SIZE - fifo.length),
           [],
           ft260_uart_drain
             (fifo ++ buf.take (min buf.length (FIFO_SIZE - fifo.length)))) := by
      simp only [ft260_uart_write]
      rw [ht]
      simp
    rw [hw]
    refine ⟨rfl, ?_, ?_⟩
    · intro hle
      omega
    · intro h1
      refine ⟨?_, ft260_uart_drain_flatten _⟩
      rw [ft260_uart_drain_length _ (by omega), hlen1]

/-- Witness for C7: 70 bytes written into an empty queue (two frames of
60 and 10 bytes). -/
theorem c7_uart_write_contract_witness :
    ((ft260_uart_write true [] (List.replicate 70 5)).1
        = min (List.replicate 70 5 : List Nat).length (FIFO_SIZE - ([] : List Nat).length)) ∧
    ((List.replicate 70 5 : List Nat).length ≤ FIFO_SIZE - ([] : List Nat).length →
      (ft260_uart_write true [] (List.replicate 70 5)).1
        = (List.replicate 70 5 : List Nat).length) ∧
    (1 ≤ ([] : List Nat).length +
        min (List.replicate 70 5 : List Nat).length (FIFO_SIZE - ([] : List Nat).length) →
      (ft260_uart_write true [] (List.replicate 70 5)).2.2.length
        = (([] : List Nat).length +
            min (List.replicate 70 5 : List Nat).length (FIFO_SIZE - ([] : List Nat).length)
            + 59) / 60 ∧
      ((ft260_uart_write true [] (List.replicate 70 5)).2.2.map
          UartTxReport.data).flatten
        = [] ++ (List.replicate 70 5 : List Nat).take
            (min (List.replicate 70 5 : List Nat).length
              (FIFO_SIZE - ([] : List Nat).length))) :=
  c7_uart_write_contract [] (List.replicate 70 5)

/-! ### UART line configuration: ft260_uart_change_speed -/

/-- Report ID FT260_SYSTEM_SETTINGS. -/
def FT260_SYSTEM_SETTINGS : Nat := 0xA1

/-- Feature-out request FT260_SET_UART_CONFIG. -/
def FT260_SET_UART_CONFIG : Nat := 0x41

/-- FT260_CFG_FLOW_CTRL_OFF -/
def FT260_CFG_FLOW_CTRL_OFF : Nat := 0x00

/-- FT260_CFG_FLOW_CTRL_RTS_CTS -/
def FT260_CFG_FLOW_CTRL_RTS_CTS : Nat := 0x01

/-- FT260_CFG_FLOW_CTRL_NONE -/
def FT260_CFG_FLOW_CTRL_NONE : Nat := 0x04

/-- FT260_CFG_DATA_BITS_7 -/
def FT260_CFG_DATA_BITS_7 : Nat := 0x07

/-- FT260_CFG_DATA_BITS_8 -/
def FT260_CFG_DATA_BITS_8 : Nat := 0x08

/-- FT260_CFG_PAR_NO -/
def FT260_CFG_PAR_NO : Nat := 0x00

/-- FT260_CFG_PAR_ODD -/
def FT260_CFG_PAR_ODD : Nat := 0x01

/-- FT260_CFG_PAR_EVEN -/
def FT260_CFG_PAR_EVEN : Nat := 0x02

/-- FT260_CFG_STOP_ONE_BIT -/
def FT260_CFG_STOP_ONE_BIT : Nat := 0x00

/-- FT260_CFG_STOP_TWO_BIT -/
def FT260_CFG_STOP_TWO_BIT : Nat := 0x02

/-- FT260_CFG_BREAKING_NO -/
def FT260_CFG_BREAKING_NO : Nat := 0x00

/-- FT260_CFG_BAUD_MIN -/
def FT260_CFG_BAUD_MIN : Nat := 1200

/-- FT260_CFG_BAUD_MAX -/
def FT260_CFG_BAUD_MAX : Nat := 12000000

/-- The termios fields consumed by ft260_uart_change_speed. -/
structure Ktermios where
  /-- Data-bit count selected by the CSIZE bits: 5, 6, 7 or 8. -/
  csize : Nat
  /-- CSTOPB: two stop bits requested. -/
  cstopb : Bool
  /-- PARENB: parity enabled. -/
  parenb : Bool
  /-- PARODD: odd parity. -/
  parodd : Bool
  /-- CRTSCTS: hardware flow control requested. -/
  crtscts : Bool
  /-- tty_termios_baud_rate value. -/
  baud : Nat
  deriving Repr, DecidableEq

/-- The UART configuration feature report
(struct ft260_configure_uart_request). -/
structure UartConfigReport where
  report : Nat
  request : Nat
  flow_ctrl : Nat
  baudrate : Nat
  data_bit : Nat
  parity : Nat
  stop_bit : Nat
  breaking : Nat
  deriving Repr, DecidableEq

/-- ft260_uart_change_speed: builds the configuration feature report
from the termios fields and sends it with ft260_hid_feature_report_set;
there is no early error return for an out-of-range rate.  A baud rate of
0, below FT260_CFG_BAUD_MIN or above FT260_CFG_BAUD_MAX is replaced by
9600, and the caller is informed through tty_encode_baud_rate (second
component: some 9600 exactly when the coercion happened).  A CSIZE of 5
or 6 is coerced to 8 data bits, 7 selects 7.  The requested
hardware-flow-control value is computed and then unconditionally
overwritten with FT260_CFG_FLOW_CTRL_NONE, and breaking with
FT260_CFG_BREAKING_NO, before the report is sent. -/
def ft260_uart_change_speed (t : Ktermios) : UartConfigReport × Option Nat :=
  let data_bit := if t.csize = 7 then FT260_CFG_DATA_BITS_7
                  else FT260_CFG_DATA_BITS_8
  let stop_bit := if t.cstopb then FT260_CFG_STOP_TWO_BIT
                  else FT260_CFG_STOP_ONE_BIT
  let parity := if t.parenb then
                  (if t.parodd then FT260_CFG_PAR_ODD else FT260_CFG_PAR_EVEN)
                else FT260_CFG_PAR_NO
  if t.baud = 0 ∨ t.baud < FT260_CFG_BAUD_MIN ∨ FT260_CFG_BAUD_MAX < t.baud then
    ({ report := FT260_SYSTEM_SETTINGS, request := FT260_SET_UART_CONFIG,
       flow_ctrl := FT260_CFG_FLOW_CTRL_NONE, baudrate := 9600,
       data_bit := data_bit, parity := parity, stop_bit := stop_bit,
       breaking := FT260_CFG_BREAKING_NO },
     some 9600)
  else
    ({ report := FT260_SYSTEM_SETTINGS, request := FT260_SET_UART_CONFIG,
       flow_ctrl := FT260_CFG_FLOW_CTRL_NONE, baudrate := t.baud,
       data_bit := data_bit, parity := parity, stop_bit := stop_bit,
       breaking := FT260_CFG_BREAKING_NO },
     none)

/-- **C9.** For every requested baud rate that is 0, below 1200 or above
12000000, ft260_uart_change_speed substitutes 9600 in the configuration
report it sends, informs the caller by re-encoding 9600 into the line
settings, and still builds and sends the configuration report (the
system-settings feature report with the UART-config request) instead of
returning a range error. -/
theorem c9_uart_change_speed_baud_coerced (t : Ktermios)
    (h : t.baud = 0 ∨ t.baud < FT260_CFG_BAUD_MIN ∨
         FT260_CFG_BAUD_MAX < t.baud) :
    (ft260_uart_change_speed t).1.baudrate = 9600 ∧
    (ft260_uart_change_speed t).2 = some 9600 ∧
    (ft260_uart_change_speed t).1.report = FT260_SYSTEM_SETTINGS ∧
    (ft260_uart_change_speed t).1.request = FT260_SET_UART_CONFIG := by
  unfold ft260_uart_change_speed
  rw [if_pos h]
  exact ⟨rfl, rfl, rfl, rfl⟩

/-- Witness for C9: a requested baud rate of 300 (below the minimum). -/
theorem c9_uart_change_speed_baud_coerced_witness :
    ((⟨8, false, false, false, false, 300⟩ : Ktermios).baud = 0 ∨
     (⟨8, false, false, false, false, 300⟩ : Ktermios).baud < FT260_CFG_BAUD_MIN ∨
     FT260_CFG_BAUD_MAX < (⟨8, false, false, false, false, 300⟩ : Ktermios).baud) ∧
    ((ft260_uart_change_speed ⟨8, false, false, false, false, 300⟩).1.baudrate = 9600 ∧
     (ft260_uart_change_speed ⟨8, false, false, false, false, 300⟩).2 = some 9600 ∧
     (ft260_uart_change_speed ⟨8, false, false, false, false, 300⟩).1.report
        = FT260_SYSTEM_SETTINGS ∧
     (ft260_uart_change_speed ⟨8, false, false, false, false, 300⟩).1.request
        = FT260_SET_UART_CONFIG) :=
  ⟨by decide,
   c9_uart_change_speed_baud_coerced ⟨8, false, false, false, false, 300⟩
     (by decide)⟩

end FT260
